import Mathlib

/-!
# Verification of the configuration / device-assignment subsystem

Shallow embedding of `src/common/config.cpp` (namespace `marian`):

* `Config::getDevices` (lines 168–214) — the device resolver, embedded as
  `Marian.getDevices` over a `Marian.Settings` record holding the typed
  values the function reads from the YAML settings store
  (`cpu-threads`, `num-devices` with its presence bit, and the raw
  `devices` string list).
* `Config::override` (lines 124–128) — embedded as `Marian.overrideDoc`
  over an association-list document model.
* The model-parameter-loading portion of `Config::initialize`
  (lines 37–57) — embedded as `Marian.initLoadModel`, with the
  `try`/`catch(std::runtime_error&)` made explicit via `Except`.
* The version/compatibility logging portion of `Config::initialize`
  (lines 65–84) — embedded as `Marian.versionLogMessage`, returning the
  message that would be logged (as data) instead of performing I/O.

Fatal `ABORT_IF` calls are embedded as `Except.error (.abort msg)` with the
exact message strings of the source; an uncaught `std::stoull` failure is
`Except.error (.parseError d)`.
-/

namespace Marian

/-- `DeviceType` from the source: a compute device is a CPU thread slot or a
GPU. -/
inductive DeviceType where
  | cpu : DeviceType
  | gpu : DeviceType
deriving DecidableEq

/-- `DeviceId`: the pair `{ no, type }` pushed into the result vector of
`Config::getDevices`. -/
structure DeviceId where
  no : Nat
  type : DeviceType
deriving DecidableEq

/-- The typed values `Config::getDevices` reads from the settings store:
`get<size_t>("cpu-threads")`, `has("num-devices")`,
`get<size_t>("num-devices")` (only consulted when present), and the raw
string list `get<vector<string>>("devices")`. -/
structure Settings where
  cpuThreads : Nat
  hasNumDevices : Bool
  numDevicesVal : Nat
  devices : List String
deriving DecidableEq

/-- Outcome of an aborted `getDevices` call: `abort msg` is `ABORT_IF` with
the source's message, `parseError d` is `std::stoull` throwing on entry `d`
(uncaught, hence also fatal). -/
inductive GetDevicesError where
  | abort : String → GetDevicesError
  | parseError : String → GetDevicesError
deriving DecidableEq

/-- `(size_t)std::stoull(d)` for a decimal-digit string, the defined case
used by the device list: `some` of the value on a non-empty all-digit
string, `none` (an exception in the source) otherwise. -/
def stoullDec (s : String) : Option Nat :=
  if s.data ≠ [] ∧ s.data.all Char.isDigit then
    some (s.data.foldl (fun n c => n * 10 + (c.toNat - 48)) 0)
  else none

/-- The parse loop `for (auto d : devicesArg) deviceNos.push_back(stoull(d))`:
all entries parsed in order, or the first entry on which `stoull` throws. -/
def parseDeviceNos : List String → Except String (List Nat)
  | [] => .ok []
  | d :: rest =>
    match stoullDec d with
    | some n => (parseDeviceNos rest).map (fun l => n :: l)
    | none => .error d

/-- `numDevices` before defaulting:
`has("num-devices") ? get<size_t>("num-devices") : 0`. -/
def numDevicesArg (s : Settings) : Nat :=
  if s.hasNumDevices then s.numDevicesVal else 0

/-- The defaulting steps of the GPU path (config.cpp lines 182–191): if the
parsed list is empty, `numDevices` falls back to 1 when zero and the list
becomes `0 .. numDevices-1`; if the list is non-empty and `numDevices` is
zero, it becomes the list's length. Returns the resulting
`(numDevices, deviceNos)` pair. -/
def resolveGpu (numDevices0 : Nat) (parsed : List Nat) : Nat × List Nat :=
  if parsed.isEmpty then
    let nd := if numDevices0 = 0 then 1 else numDevices0
    (nd, List.range nd)
  else if numDevices0 = 0 then
    (parsed.length, parsed)
  else
    (numDevices0, parsed)

/-- `std::vector::resize(n)` on a vector of `size_t`: truncate to `n`
elements, padding with value-initialized `0` when shorter than `n`. -/
def listResize (l : List Nat) (n : Nat) : List Nat :=
  l.take n ++ List.replicate (n - l.length) 0

/-- The GPU branch of `Config::getDevices` after parsing (config.cpp lines
178–207): defaulting, the single-process size check, the multiple-of check,
the per-process slice (`erase` of the first `myMPIRank * numDevices`
entries, then `resize(numDevices)`), and conversion to GPU device ids. -/
def getDevicesGpu (numDevices0 : Nat) (parsed : List Nat)
    (myMPIRank numMPIProcesses : Nat) : Except GetDevicesError (List DeviceId) :=
  let nd := (resolveGpu numDevices0 parsed).1
  let dn := (resolveGpu numDevices0 parsed).2
  if numMPIProcesses = 1 ∧ nd ≠ dn.length then
    .error (.abort "devices[] size must be equal to numDevices")
  else
    let per := dn.length / nd
    if nd * per ≠ dn.length then
      .error (.abort "devices[] size must be equal to or a multiple of numDevices")
    else if per ≠ 1 then
      if per ≠ numMPIProcesses then
        .error (.abort "devices[] must either list a shared set of devices, or one set per MPI process")
      else
        .ok ((listResize (dn.drop (myMPIRank * nd)) nd).map
          (fun d => ⟨d, DeviceType.gpu⟩))
    else
      .ok (dn.map (fun d => ⟨d, DeviceType.gpu⟩))

/-- `Config::getDevices(myMPIRank, numMPIProcesses)` (config.cpp lines
168–214): the CPU path enumerates thread indices `0 .. cpu-threads-1` and
ignores `devices`; otherwise the `devices` strings are parsed and the GPU
path runs. The trailing MPI logging loop has no effect on the returned
vector and is omitted. -/
def getDevices (s : Settings) (myMPIRank : Nat) (numMPIProcesses : Nat) :
    Except GetDevicesError (List DeviceId) :=
  if s.cpuThreads > 0 then
    .ok ((List.range s.cpuThreads).map (fun i => ⟨i, DeviceType.cpu⟩))
  else
    match parseDeviceNos s.devices with
    | .error d => .error (.parseError d)
    | .ok parsed => getDevicesGpu (numDevicesArg s) parsed myMPIRank numMPIProcesses

deriving instance DecidableEq for Except

/-- `cli::mode`: the run mode fixed at `Config` construction. -/
inductive Mode where
  | training : Mode
  | translation : Mode
  | server : Mode
  | scoring : Mode
deriving DecidableEq

/-- The informational messages the version-compatibility block of
`Config::initialize` can log, as data instead of I/O: the
will-be-overwritten-at-saving notice, the plain loaded-with notice, and
the new-model notice. -/
inductive VersionMessage where
  | upgradeNotice : String → String → VersionMessage
  | loadedWith : String → VersionMessage
  | createdWith : String → VersionMessage
deriving DecidableEq

/-- The version-compatibility logging of `Config::initialize` (config.cpp
lines 65–84): `hasVersion` is `has("version")`, `version` its value,
`buildVersion` the build constant `PROJECT_VERSION_FULL`. Returns the
message logged, `none` when nothing is logged. -/
def versionLogMessage (hasVersion : Bool) (version buildVersion : String)
    (mode : Mode) : Option VersionMessage :=
  if hasVersion then
    if mode = Mode.training ∧ version ≠ buildVersion then
      some (.upgradeNotice version buildVersion)
    else
      some (.loadedWith version)
  else if mode = Mode.training then
    some (.createdWith buildVersion)
  else
    none

/-- A YAML value as stored under a top-level key: a scalar, a sequence,
or a nested mapping — enough structure to observe that `override`
replaces a nested value wholesale. -/
inductive Val where
  | scalar : String → Val
  | seq : List String → Val
  | table : List (String × String) → Val
deriving DecidableEq

/-- The settings document: top-level keys with their values, in insertion
order (a `YAML::Node` mapping). -/
abbrev Doc : Type := List (String × Val)

/-- Reading a top-level key from the document: the value of the first
entry with that key, if any. -/
def lookupKey (cfg : Doc) (k : String) : Option Val :=
  (List.find? (fun p => p.1 == k) cfg).map (fun p => p.2)

/-- `config_[key] = value` on a YAML mapping: replace the value stored at
`key` when the key is present, otherwise append a new entry. -/
def setKey (cfg : Doc) (k : String) (v : Val) : Doc :=
  if List.any cfg (fun p => p.1 == k) then
    List.map (fun p => if p.1 == k then (k, v) else p) cfg
  else
    cfg ++ [(k, v)]

/-- `Config::override(params)` (config.cpp lines 124–128):
`config_[it.first] = it.second` for every entry of `params`, in order. -/
def overrideDoc (cfg : Doc) (params : Doc) : Doc :=
  List.foldl (fun c p => setKey c p.1 p.2) cfg params

/-- `Config::loadModelParameters` (config.cpp lines 112–116): extract the
`special:model.yml` fragment and `override` with it. The fragment input
stands for `io::getYamlFromModel`: `.error` is the
`ModelConfigNotFoundError` it raises as a `std::runtime_error`, which
propagates out of `loadModelParameters` uncaught. -/
def loadModelParameters (cfg : Doc) (fragment : Except String Doc) :
    Except String Doc :=
  match fragment with
  | .ok f => .ok (overrideDoc cfg f)
  | .error e => .error e

/-- The model-parameter-loading step of `Config::initialize` (config.cpp
lines 37–57). `modelExists` is `filesystem::exists(model)`, `noReload`
and `ignoreModelConfig` the corresponding flags, `fragment` the outcome
of reading the embedded fragment. Returns the resulting document paired
with whether the informational `No model configuration found in model
file` log was emitted; an exception escaping the `try`/`catch` would
surface as `Except.error`. -/
def initLoadModel (mode : Mode) (modelExists noReload ignoreModelConfig : Bool)
    (fragment : Except String Doc) (cfg : Doc) : Except String (Doc × Bool) :=
  if mode ≠ Mode.translation then
    if modelExists ∧ ¬noReload then
      match (if ¬ignoreModelConfig then loadModelParameters cfg fragment
             else .ok cfg) with
      | .ok c => .ok (c, false)
      | .error _ => .ok (cfg, true)
    else .ok (cfg, false)
  else
    match (if ¬ignoreModelConfig then loadModelParameters cfg fragment
           else .ok cfg) with
    | .ok c => .ok (c, false)
    | .error _ => .ok (cfg, true)

/-- In the GPU path (`cpu-threads == 0`), once the device strings parse,
`getDevices` is the GPU branch on the parsed numbers. -/
theorem getDevices_gpu_eq (s : Settings) (myMPIRank numMPIProcesses : Nat)
    (parsed : List Nat) (hcpu : s.cpuThreads = 0)
    (hp : parseDeviceNos s.devices = .ok parsed) :
    getDevices s myMPIRank numMPIProcesses =
      getDevicesGpu (numDevicesArg s) parsed myMPIRank numMPIProcesses := by
  unfold getDevices
  rw [if_neg (by omega), hp]

/-- After the defaulting steps, the divisor `numDevices` and the list
`deviceNos` are both non-trivial: `numDevices ≥ 1` and `deviceNos` is
non-empty. -/
theorem resolveGpu_pos (n0 : Nat) (parsed : List Nat) :
    0 < (resolveGpu n0 parsed).1 ∧ 0 < (resolveGpu n0 parsed).2.length := by
  unfold resolveGpu
  by_cases he : parsed.isEmpty
  · rw [if_pos he]
    by_cases h0 : n0 = 0 <;> simp [h0]
    omega
  · rw [if_neg he]
    have hlen : 0 < parsed.length := by
      cases parsed with
      | nil => simp at he
      | cons a l => simp
    by_cases h0 : n0 = 0 <;> simp [h0, hlen]
    omega

/-- C2: with `cpu-threads = N > 0`, `getDevices` returns exactly the CPU
devices `0 .. N-1` in ascending order, whatever the `devices` list,
`num-devices`, rank, and process count are. -/
theorem C2_cpu_path (s : Settings) (myMPIRank numMPIProcesses : Nat)
    (h : 0 < s.cpuThreads) :
    getDevices s myMPIRank numMPIProcesses =
      .ok ((List.range s.cpuThreads).map (fun i => ⟨i, DeviceType.cpu⟩)) := by
  unfold getDevices
  rw [if_pos h]

/-- Witness for C2 at a concrete store: `cpu-threads = 3` with a
non-numeric `devices` entry, `num-devices = 5`, rank 4 of 7. -/
theorem C2_cpu_path_witness :
    0 < (3 : Nat) ∧ getDevices ⟨3, true, 5, ["9", "x"]⟩ 4 7 =
      .ok [⟨0, DeviceType.cpu⟩, ⟨1, DeviceType.cpu⟩, ⟨2, DeviceType.cpu⟩] := by
  refine ⟨by decide, ?_⟩
  have h := C2_cpu_path ⟨3, true, 5, ["9", "x"]⟩ 4 7 (by decide)
  simpa using h

/-- C9: any list `getDevices` actually returns is homogeneous in device
kind — all CPU (the `cpu-threads > 0` branch) or all GPU (the other
branch); the kinds are never mixed. -/
theorem C9_uniform_kind (s : Settings) (myMPIRank numMPIProcesses : Nat)
    (l : List DeviceId)
    (h : getDevices s myMPIRank numMPIProcesses = .ok l) :
    (∀ d ∈ l, d.type = DeviceType.cpu) ∨ (∀ d ∈ l, d.type = DeviceType.gpu) := by
  unfold getDevices at h
  by_cases hc : 0 < s.cpuThreads
  · rw [if_pos hc] at h
    injection h with h
    subst h
    left
    intro d hd
    simp only [List.mem_map] at hd
    obtain ⟨i, _, rfl⟩ := hd
    rfl
  · rw [if_neg hc] at h
    cases hp : parseDeviceNos s.devices with
    | error d => rw [hp] at h; cases h
    | ok parsed =>
      rw [hp] at h
      right
      simp only [getDevicesGpu] at h
      split at h
      · cases h
      · split at h
        · cases h
        · split at h
          · split at h
            · cases h
            · injection h with h
              subst h
              intro d hd
              simp only [List.mem_map] at hd
              obtain ⟨i, _, rfl⟩ := hd
              rfl
          · injection h with h
            subst h
            intro d hd
            simp only [List.mem_map] at hd
            obtain ⟨i, _, rfl⟩ := hd
            rfl

/-- Witness for C9 at the default store (empty `devices`, no
`num-devices`): the returned list `[GPU 0]` is all-GPU. -/
theorem C9_uniform_kind_witness :
    (∀ d ∈ ([⟨0, DeviceType.gpu⟩] : List DeviceId), d.type = DeviceType.cpu) ∨
    (∀ d ∈ ([⟨0, DeviceType.gpu⟩] : List DeviceId), d.type = DeviceType.gpu) :=
  C9_uniform_kind ⟨0, false, 0, []⟩ 0 1 [⟨0, DeviceType.gpu⟩] (by decide)

/-- C3: in the GPU path, an empty parsed `devices` list makes `numDevices`
default to 1 when it is unresolved (zero) and `deviceNos` become
`0 .. numDevices-1`; a non-empty list with unresolved `numDevices` sets
`numDevices` to the list length; and with empty `devices` plus no
`num-devices` key the resolved result is the single GPU device 0. -/
theorem C3_gpu_defaults (s : Settings) (myMPIRank numMPIProcesses n0 : Nat)
    (parsed : List Nat)
    (hcpu : s.cpuThreads = 0) (hdev : s.devices = [])
    (hnum : s.hasNumDevices = false) :
    resolveGpu n0 [] =
      (if n0 = 0 then 1 else n0, List.range (if n0 = 0 then 1 else n0)) ∧
    (parsed ≠ [] → resolveGpu 0 parsed = (parsed.length, parsed)) ∧
    getDevices s myMPIRank numMPIProcesses = .ok [⟨0, DeviceType.gpu⟩] := by
  refine ⟨by simp [resolveGpu], ?_, ?_⟩
  · intro h
    cases parsed with
    | nil => exact absurd rfl h
    | cons a l => simp [resolveGpu]
  · have hg := getDevices_gpu_eq s myMPIRank numMPIProcesses [] hcpu
      (by rw [hdev]; rfl)
    rw [hg]
    simp [getDevicesGpu, resolveGpu, numDevicesArg, hnum, listResize]
    decide

/-- Witness for C3: the default store (GPU path, empty `devices`, no
`num-devices`) resolves to the single GPU device 0 at rank 2 of 9. -/
theorem C3_gpu_defaults_witness :
    getDevices ⟨0, false, 0, []⟩ 2 9 = .ok [⟨0, DeviceType.gpu⟩] :=
  (C3_gpu_defaults ⟨0, false, 0, []⟩ 2 9 5 [3, 4] rfl rfl rfl).2.2

/-- C4: with a single process, a mismatch between the resolved
`numDevices` and the length of `deviceNos` aborts with exactly
`devices[] size must be equal to numDevices`; with matching sizes the
check passes and the devices are returned. -/
theorem C4_single_process_size (s : Settings) (myMPIRank : Nat)
    (parsed : List Nat) (nd : Nat) (dn : List Nat)
    (hcpu : s.cpuThreads = 0) (hp : parseDeviceNos s.devices = .ok parsed)
    (hr : resolveGpu (numDevicesArg s) parsed = (nd, dn)) :
    (nd ≠ dn.length →
      getDevices s myMPIRank 1 =
        .error (.abort "devices[] size must be equal to numDevices")) ∧
    (nd = dn.length →
      getDevices s myMPIRank 1 = .ok (dn.map (fun d => ⟨d, DeviceType.gpu⟩))) := by
  have hg := getDevices_gpu_eq s myMPIRank 1 parsed hcpu hp
  have hpos := resolveGpu_pos (numDevicesArg s) parsed
  rw [hr] at hpos
  constructor
  · intro hne
    rw [hg]
    simp only [getDevicesGpu, hr]
    rw [if_pos (by simp [hne])]
  · intro heq
    rw [hg]
    simp only [getDevicesGpu, hr]
    have h1 : dn.length / nd = 1 := by
      rw [heq]
      exact Nat.div_self (by omega)
    rw [if_neg (by simp [heq]), h1]
    rw [if_neg (by omega), if_neg (by omega)]

/-- Witness for C4: the spec's own example `num-devices = 2`,
`devices = [0,1,2]`, one process — size mismatch 3 ≠ 2 aborts. -/
theorem C4_single_process_size_witness :
    getDevices ⟨0, true, 2, ["0", "1", "2"]⟩ 0 1 =
      .error (.abort "devices[] size must be equal to numDevices") := by
  have h := C4_single_process_size ⟨0, true, 2, ["0", "1", "2"]⟩ 0 [0, 1, 2] 2
    [0, 1, 2] rfl (by decide) (by decide)
  exact h.1 (by decide)

/-- `resize` to a length the list already reaches only truncates; no zero
padding happens. -/
theorem listResize_of_le (l : List Nat) (n : Nat) (h : n ≤ l.length) :
    listResize l n = l.take n := by
  unfold listResize
  rw [Nat.sub_eq_zero_of_le h]
  simp

/-- Counterexample for C5 as stated: with one process, `num-devices = 2`
and `devices = [0,1,2]` (length 3, not a multiple of 2), the call aborts
with the single-process message `devices[] size must be equal to
numDevices`, not with the multiple-of message the claim names. -/
theorem C5_counterexample :
    getDevices ⟨0, true, 2, ["0", "1", "2"]⟩ 0 1 =
      .error (.abort "devices[] size must be equal to numDevices") ∧
    getDevices ⟨0, true, 2, ["0", "1", "2"]⟩ 0 1 ≠
      .error
        (.abort "devices[] size must be equal to or a multiple of numDevices") := by
  decide

/-- C5 (amended): a non-multiple `deviceNos` length is always fatal, and
carries the message `devices[] size must be equal to or a multiple of
numDevices` whenever the process count is not 1 (with one process the
single-process size check fires first with its own message); an exact
multiple never produces the multiple-of abort. -/
theorem C5_multiple_check (s : Settings) (myMPIRank numMPIProcesses : Nat)
    (parsed : List Nat) (nd : Nat) (dn : List Nat)
    (hcpu : s.cpuThreads = 0) (hp : parseDeviceNos s.devices = .ok parsed)
    (hr : resolveGpu (numDevicesArg s) parsed = (nd, dn)) :
    (nd * (dn.length / nd) ≠ dn.length →
      ∃ m, getDevices s myMPIRank numMPIProcesses = .error (.abort m)) ∧
    (numMPIProcesses ≠ 1 → nd * (dn.length / nd) ≠ dn.length →
      getDevices s myMPIRank numMPIProcesses =
        .error
          (.abort "devices[] size must be equal to or a multiple of numDevices")) ∧
    (nd * (dn.length / nd) = dn.length →
      getDevices s myMPIRank numMPIProcesses ≠
        .error
          (.abort "devices[] size must be equal to or a multiple of numDevices")) := by
  have hg := getDevices_gpu_eq s myMPIRank numMPIProcesses parsed hcpu hp
  have hpos := resolveGpu_pos (numDevicesArg s) parsed
  rw [hr] at hpos
  rw [hg]
  simp only [getDevicesGpu, hr]
  have hmsg2 : ∀ hq : numMPIProcesses ≠ 1, ∀ hmf : nd * (dn.length / nd) ≠ dn.length,
      (if numMPIProcesses = 1 ∧ nd ≠ dn.length then
          (Except.error (GetDevicesError.abort "devices[] size must be equal to numDevices") :
            Except GetDevicesError (List DeviceId))
        else if nd * (dn.length / nd) ≠ dn.length then
          .error (.abort "devices[] size must be equal to or a multiple of numDevices")
        else if dn.length / nd ≠ 1 then
          if dn.length / nd ≠ numMPIProcesses then
            .error
              (.abort "devices[] must either list a shared set of devices, or one set per MPI process")
          else
            .ok ((listResize (dn.drop (myMPIRank * nd)) nd).map
              (fun d => ⟨d, DeviceType.gpu⟩))
        else .ok (dn.map (fun d => ⟨d, DeviceType.gpu⟩))) =
      .error (.abort "devices[] size must be equal to or a multiple of numDevices") := by
    intro hq hmf
    rw [if_neg (by simp [hq]), if_pos hmf]
  refine ⟨?_, hmsg2, ?_⟩
  · intro hmf
    by_cases hq : numMPIProcesses = 1
    · have hne : nd ≠ dn.length := by
        intro he
        apply hmf
        rw [he, Nat.div_self (by omega), Nat.mul_one]
      exact ⟨_, by rw [if_pos (by simp [hq, hne])]⟩
    · exact ⟨_, hmsg2 hq hmf⟩
  · intro hmt
    split
    · decide
    · rw [if_neg (by simp [hmt])]
      split
      · split
        · decide
        · simp
      · simp

/-- Witness for C5 (amended): two processes, `num-devices = 2`,
`devices = [0,1,2,3,4]` — length 5 is not a multiple of 2, so the call
aborts with the multiple-of message. -/
theorem C5_multiple_check_witness :
    getDevices ⟨0, true, 2, ["0", "1", "2", "3", "4"]⟩ 0 2 =
      .error
        (.abort "devices[] size must be equal to or a multiple of numDevices") := by
  have h := C5_multiple_check ⟨0, true, 2, ["0", "1", "2", "3", "4"]⟩ 0 2
    [0, 1, 2, 3, 4] 2 [0, 1, 2, 3, 4] rfl (by decide) (by decide)
  exact h.2.1 (by decide) (by decide)

/-- Counterexample for C1 as stated: `num-devices = 2`,
`devices = [0,1,2,3,4]`, two processes. `perProcessCount = 5 / 2 = 2`
equals `numMPIProcesses` and is not 1, yet rank 0 does not receive the
contiguous block `[0, 1]`: the call aborts because 5 is not an exact
multiple of 2. -/
theorem C1_counterexample :
    ((resolveGpu 2 [0, 1, 2, 3, 4]).2.length / (resolveGpu 2 [0, 1, 2, 3, 4]).1 = 2 ∧
      (2 : Nat) ≠ 1) ∧
    getDevices ⟨0, true, 2, ["0", "1", "2", "3", "4"]⟩ 0 2 ≠
      .ok [⟨0, DeviceType.gpu⟩, ⟨1, DeviceType.gpu⟩] := by
  decide

/-- C1 (amended): in the GPU path, when `perProcessCount ≠ 1` the call
aborts unless `perProcessCount = numMPIProcesses`; when
`perProcessCount = numMPIProcesses` and `deviceNos` is additionally an
exact multiple of `numDevices` long, each rank `myMPIRank <
numMPIProcesses` receives exactly the contiguous block
`deviceNos[myMPIRank*numDevices .. (myMPIRank+1)*numDevices - 1]` as GPU
ids; when `perProcessCount = 1` and `numDevices = len(deviceNos)` every
rank receives `deviceNos` verbatim. -/
theorem C1_per_process_slicing (s : Settings) (myMPIRank numMPIProcesses : Nat)
    (parsed : List Nat) (nd : Nat) (dn : List Nat)
    (hcpu : s.cpuThreads = 0) (hp : parseDeviceNos s.devices = .ok parsed)
    (hr : resolveGpu (numDevicesArg s) parsed = (nd, dn)) :
    (dn.length / nd ≠ 1 → dn.length / nd ≠ numMPIProcesses →
      ∃ m, getDevices s myMPIRank numMPIProcesses = .error (.abort m)) ∧
    (dn.length / nd ≠ 1 → dn.length / nd = numMPIProcesses →
      nd * (dn.length / nd) = dn.length → myMPIRank < numMPIProcesses →
      getDevices s myMPIRank numMPIProcesses =
        .ok (((dn.drop (myMPIRank * nd)).take nd).map
          (fun d => ⟨d, DeviceType.gpu⟩))) ∧
    (dn.length / nd = 1 → nd = dn.length →
      getDevices s myMPIRank numMPIProcesses =
        .ok (dn.map (fun d => ⟨d, DeviceType.gpu⟩))) := by
  have hg := getDevices_gpu_eq s myMPIRank numMPIProcesses parsed hcpu hp
  have hpos := resolveGpu_pos (numDevicesArg s) parsed
  rw [hr] at hpos
  rw [hg]
  simp only [getDevicesGpu, hr]
  refine ⟨?_, ?_, ?_⟩
  · intro hper hnp
    by_cases hq : numMPIProcesses = 1
    · have hne : nd ≠ dn.length := by
        intro he
        apply hper
        rw [he, Nat.div_self (by omega)]
      exact ⟨_, by rw [if_pos (by simp [hq, hne])]⟩
    · rw [if_neg (by simp [hq])]
      by_cases hmf : nd * (dn.length / nd) = dn.length
      · rw [if_neg (by simp [hmf]), if_pos hper, if_pos hnp]
        exact ⟨_, rfl⟩
      · rw [if_pos hmf]
        exact ⟨_, rfl⟩
  · intro hper hnp hmult hrank
    have hq : numMPIProcesses ≠ 1 := fun h => hper (h ▸ hnp)
    rw [if_neg (by simp [hq]), if_neg (by simp [hmult]), if_pos hper,
      if_neg (by simp [hnp])]
    have hlen : dn.length = numMPIProcesses * nd := by
      rw [← hmult, hnp, Nat.mul_comm]
    have hb : myMPIRank * nd + nd ≤ dn.length := by
      rw [hlen]
      have h1 : (myMPIRank + 1) * nd ≤ numMPIProcesses * nd :=
        Nat.mul_le_mul_right nd hrank
      rw [Nat.add_mul, Nat.one_mul] at h1
      exact h1
    have hge : nd ≤ (dn.drop (myMPIRank * nd)).length := by
      rw [List.length_drop]
      exact Nat.le_sub_of_add_le (by rwa [Nat.add_comm] at hb)
    rw [listResize_of_le _ _ hge]
  · intro hper hnd
    rw [if_neg (by simp [hnd]), if_neg (by rw [hper, Nat.mul_one, hnd]; simp),
      if_neg (by simp [hper])]

/-- Witness for C1 (amended): the spec's worked example `num-devices = 1`,
`devices = [4, 5]`, two processes — rank 1 receives its block `[5]`. -/
theorem C1_per_process_slicing_witness :
    getDevices ⟨0, true, 1, ["4", "5"]⟩ 1 2 = .ok [⟨5, DeviceType.gpu⟩] := by
  have h := C1_per_process_slicing ⟨0, true, 1, ["4", "5"]⟩ 1 2 [4, 5] 1 [4, 5]
    rfl (by decide) (by decide)
  have h2 := h.2.1 (by decide) (by decide) (by decide) (by decide)
  simpa using h2

/-- C10: in the GPU path with parseable device entries and
`myMPIRank < numMPIProcesses`, the divisor `numDevices` is at least 1
when `perProcessCount` is computed; when the slice is taken the list has
length `numMPIProcesses * numDevices` and the erase offset plus resize
length stay within it; and the call either returns a list or stops at
one of the three documented fatal checks. -/
theorem C10_gpu_safety (s : Settings) (myMPIRank numMPIProcesses : Nat)
    (parsed : List Nat) (nd : Nat) (dn : List Nat)
    (hcpu : s.cpuThreads = 0) (hp : parseDeviceNos s.devices = .ok parsed)
    (hr : resolveGpu (numDevicesArg s) parsed = (nd, dn))
    (hrank : myMPIRank < numMPIProcesses) :
    1 ≤ nd ∧
    (dn.length / nd ≠ 1 → dn.length / nd = numMPIProcesses →
      nd * (dn.length / nd) = dn.length →
      dn.length = numMPIProcesses * nd ∧ myMPIRank * nd + nd ≤ dn.length) ∧
    ((∃ l, getDevices s myMPIRank numMPIProcesses = .ok l) ∨
      getDevices s myMPIRank numMPIProcesses =
        .error (.abort "devices[] size must be equal to numDevices") ∨
      getDevices s myMPIRank numMPIProcesses =
        .error
          (.abort "devices[] size must be equal to or a multiple of numDevices") ∨
      getDevices s myMPIRank numMPIProcesses =
        .error
          (.abort "devices[] must either list a shared set of devices, or one set per MPI process")) := by
  have hg := getDevices_gpu_eq s myMPIRank numMPIProcesses parsed hcpu hp
  have hpos := resolveGpu_pos (numDevicesArg s) parsed
  rw [hr] at hpos
  refine ⟨by omega, ?_, ?_⟩
  · intro hper hnp hmult
    have hlen : dn.length = numMPIProcesses * nd := by
      rw [← hmult, hnp, Nat.mul_comm]
    refine ⟨hlen, ?_⟩
    rw [hlen]
    have h1 : (myMPIRank + 1) * nd ≤ numMPIProcesses * nd :=
      Nat.mul_le_mul_right nd hrank
    rw [Nat.add_mul, Nat.one_mul] at h1
    exact h1
  · rw [hg]
    simp only [getDevicesGpu, hr]
    split
    · right; left; rfl
    · split
      · right; right; left; rfl
      · split
        · split
          · right; right; right; rfl
          · left; exact ⟨_, rfl⟩
        · left; exact ⟨_, rfl⟩

/-- Witness for C10 at `num-devices = 4`, `devices = 0..7`, rank 1 of 2:
the call completes (here with the slice `[4,5,6,7]`). -/
theorem C10_gpu_safety_witness :
    (∃ l, getDevices ⟨0, true, 4, ["0", "1", "2", "3", "4", "5", "6", "7"]⟩ 1 2 =
      .ok l) ∨
    getDevices ⟨0, true, 4, ["0", "1", "2", "3", "4", "5", "6", "7"]⟩ 1 2 =
      .error (.abort "devices[] size must be equal to numDevices") ∨
    getDevices ⟨0, true, 4, ["0", "1", "2", "3", "4", "5", "6", "7"]⟩ 1 2 =
      .error
        (.abort "devices[] size must be equal to or a multiple of numDevices") ∨
    getDevices ⟨0, true, 4, ["0", "1", "2", "3", "4", "5", "6", "7"]⟩ 1 2 =
      .error
        (.abort "devices[] must either list a shared set of devices, or one set per MPI process") :=
  (C10_gpu_safety ⟨0, true, 4, ["0", "1", "2", "3", "4", "5", "6", "7"]⟩ 1 2
    [0, 1, 2, 3, 4, 5, 6, 7] 4 [0, 1, 2, 3, 4, 5, 6, 7] rfl (by decide)
    (by decide) (by decide)).2.2

/-- Counterexample for C7 as stated: with `version` present and different
from the build version in a non-training mode, the code still logs the
`loaded with version X` message (the `else` branch), where the claim
asserts no message is emitted. -/
theorem C7_counterexample :
    versionLogMessage true "v1.2.0" "v1.4.0" Mode.translation =
      some (.loadedWith "v1.2.0") ∧
    versionLogMessage true "v1.2.0" "v1.4.0" Mode.translation ≠ none := by
  decide

/-- C7 (amended): the upgrade notice is logged exactly when `version` is
present, differs from the build version, and the mode is training; the
`loaded with version X` message exactly when `version` is present and
either equals the build version or the mode is not training; the
new-model message exactly when `version` is absent and the mode is
training; and nothing is logged exactly when `version` is absent in a
non-training mode. -/
theorem C7_version_logging (hv : Bool) (v bv : String) (m : Mode) :
    (versionLogMessage hv v bv m = some (.upgradeNotice v bv) ↔
      hv = true ∧ m = Mode.training ∧ v ≠ bv) ∧
    (versionLogMessage hv v bv m = some (.loadedWith v) ↔
      hv = true ∧ (v = bv ∨ m ≠ Mode.training)) ∧
    (versionLogMessage hv v bv m = some (.createdWith bv) ↔
      hv = false ∧ m = Mode.training) ∧
    (versionLogMessage hv v bv m = none ↔ hv = false ∧ m ≠ Mode.training) := by
  unfold versionLogMessage
  cases hv with
  | false => by_cases hm : m = Mode.training <;> simp [hm]
  | true =>
    by_cases hm : m = Mode.training <;> by_cases hvb : v = bv <;>
      simp [hm, hvb]

/-- C8: the loader's missing-fragment runtime error never escapes
`initialize`: the load step always completes, and whenever the load is
attempted (`ignore-model-config` unset, and in the non-translation path
the model file exists with `no-reload` unset) a missing fragment leaves
the settings unchanged, merely recording the informational log — in the
training (non-translation) and translation paths alike. -/
theorem C8_fragment_not_found_recovered (modelExists noReload : Bool)
    (e : String) (cfg : Doc) :
    (∀ mode ignore fragment, ∃ cb,
      initLoadModel mode modelExists noReload ignore fragment cfg = .ok cb) ∧
    (∀ mode, mode ≠ Mode.translation → modelExists = true → noReload = false →
      initLoadModel mode modelExists noReload false (.error e) cfg =
        .ok (cfg, true)) ∧
    initLoadModel Mode.translation modelExists noReload false (.error e) cfg =
      .ok (cfg, true) := by
  refine ⟨?_, ?_, rfl⟩
  · intro mode ignore fragment
    cases mode <;> cases modelExists <;> cases noReload <;> cases ignore <;>
      cases fragment <;> exact ⟨_, rfl⟩
  · intro mode hmode hme hnr
    subst hme hnr
    cases mode with
    | translation => exact absurd rfl hmode
    | training => rfl
    | server => rfl
    | scoring => rfl

/-- Witness for C8: a missing fragment is absorbed as "no override plus a
log" in both a training-path and a translation-path call. -/
theorem C8_fragment_not_found_recovered_witness :
    initLoadModel Mode.training true false false (.error "not found")
      [("seed", Val.scalar "0")] = .ok ([("seed", Val.scalar "0")], true) ∧
    initLoadModel Mode.translation true false false (.error "not found")
      [("seed", Val.scalar "0")] = .ok ([("seed", Val.scalar "0")], true) := by
  have h := C8_fragment_not_found_recovered true false "not found"
    [("seed", Val.scalar "0")]
  exact ⟨h.2.1 Mode.training (by decide) rfl rfl, h.2.2⟩

/-- A key that occurs nowhere in a document looks up to nothing. -/
theorem lookupKey_eq_none (l : Doc) (k : String)
    (h : k ∉ List.map Prod.fst l) : lookupKey l k = none := by
  unfold lookupKey
  have h0 : List.find? (fun p => p.1 == k) l = none := by
    rw [List.find?_eq_none]
    intro p hp hpk
    rw [beq_iff_eq] at hpk
    exact h (List.mem_map.mpr ⟨p, hp, hpk⟩)
  rw [h0]
  rfl

/-- `setKey` stores the assignment: the updated document maps `k` to
`v`. -/
theorem lookupKey_setKey_self (cfg : Doc) (k : String) (v : Val) :
    lookupKey (setKey cfg k v) k = some v := by
  unfold setKey
  by_cases h : List.any cfg (fun p => p.1 == k) = true
  · rw [if_pos h]
    unfold lookupKey
    rw [List.find?_map]
    have hq : ((fun p => p.1 == k) ∘ (fun p => if p.1 == k then (k, v) else p) :
        String × Val → Bool) = (fun p => p.1 == k) := by
      funext p
      by_cases hp : p.1 = k <;> simp [hp]
    rw [hq]
    obtain ⟨p₁, hfind⟩ := Option.isSome_iff_exists.mp
      (List.find?_isSome.mpr (List.any_eq_true.mp h))
    rw [hfind]
    have hk₁ : p₁.1 = k := by simpa using List.find?_some hfind
    simp [hk₁]
  · rw [if_neg h]
    unfold lookupKey
    rw [List.find?_append]
    have h' : List.any cfg (fun p => p.1 == k) = false := by
      cases hh : List.any cfg (fun p => p.1 == k) with
      | false => rfl
      | true => exact absurd hh h
    have h0 : List.find? (fun p => p.1 == k) cfg = none :=
      List.find?_eq_none.mpr (List.any_eq_false.mp h')
    rw [h0]
    simp

/-- `setKey` leaves every other key's lookup unchanged. -/
theorem lookupKey_setKey_ne (cfg : Doc) (k k' : String) (v : Val)
    (hk : k' ≠ k) : lookupKey (setKey cfg k v) k' = lookupKey cfg k' := by
  unfold setKey
  by_cases h : List.any cfg (fun p => p.1 == k) = true
  · rw [if_pos h]
    unfold lookupKey
    rw [List.find?_map]
    have hq : ((fun p => p.1 == k') ∘ (fun p => if p.1 == k then (k, v) else p) :
        String × Val → Bool) = (fun p => p.1 == k') := by
      funext p
      by_cases hp : p.1 = k <;> simp [hp]
    rw [hq]
    cases hf : List.find? (fun p => p.1 == k') cfg with
    | none => rfl
    | some p₁ =>
      have hk₁ : p₁.1 = k' := by simpa using List.find?_some hf
      simp [hk₁, hk]
  · rw [if_neg h]
    unfold lookupKey
    rw [List.find?_append]
    have hone : List.find? (fun p => p.1 == k') [(k, v)] = none := by
      simp [List.find?_singleton, beq_eq_false_iff_ne, Ne.symm hk]
    rw [hone]
    cases List.find? (fun p => p.1 == k') cfg <;> rfl

/-- Looking a key up after `override` gives the overriding document's
value when it has the key, the original value otherwise. -/
theorem lookupKey_overrideDoc (params : Doc) :
    ∀ cfg : Doc, (List.map Prod.fst params).Nodup → ∀ k : String,
      lookupKey (overrideDoc cfg params) k =
        (lookupKey params k).or (lookupKey cfg k) := by
  induction params with
  | nil =>
    intro cfg _ k
    simp [overrideDoc, lookupKey]
  | cons a rest ih =>
    intro cfg hnd k
    rw [List.map_cons, List.nodup_cons] at hnd
    obtain ⟨hka, hnd'⟩ := hnd
    have hstep : overrideDoc cfg (a :: rest) =
        overrideDoc (setKey cfg a.1 a.2) rest := rfl
    rw [hstep, ih (setKey cfg a.1 a.2) hnd' k]
    by_cases hk : k = a.1
    · rw [hk]
      rw [lookupKey_eq_none rest a.1 hka, lookupKey_setKey_self]
      have hhead : lookupKey (a :: rest) a.1 = some a.2 := by
        unfold lookupKey
        rw [List.find?_cons_of_pos _ (by simp)]
        rfl
      rw [hhead]
      rfl
    · rw [lookupKey_setKey_ne cfg a.1 k a.2 hk]
      have hhead : lookupKey (a :: rest) k = lookupKey rest k := by
        unfold lookupKey
        rw [List.find?_cons_of_neg _ (by simpa using Ne.symm hk)]
      rw [hhead]

/-- Entries of `setKey cfg k v` with a key other than `k` come from
`cfg`. -/
theorem mem_setKey_of_key_ne (cfg : Doc) (k : String) (v : Val)
    (p : String × Val) (hp : p ∈ setKey cfg k v) (hne : p.1 ≠ k) :
    p ∈ cfg := by
  unfold setKey at hp
  by_cases h : List.any cfg (fun q => q.1 == k) = true
  · rw [if_pos h] at hp
    obtain ⟨q, hq, hfq⟩ := List.mem_map.mp hp
    by_cases hqk : q.1 = k
    · rw [if_pos (by simpa using hqk)] at hfq
      exact absurd (by rw [← hfq]) hne
    · rw [if_neg (by simpa using hqk)] at hfq
      rw [← hfq]
      exact hq
  · rw [if_neg h] at hp
    rcases List.mem_append.mp hp with h1 | h1
    · exact h1
    · rw [List.mem_singleton] at h1
      exact absurd (by rw [h1]) hne

/-- Entries of `setKey cfg k v` whose key is `k` are exactly the new
assignment. -/
theorem setKey_entry_eq (cfg : Doc) (k : String) (v : Val)
    (p : String × Val) (hp : p ∈ setKey cfg k v) (hk : p.1 = k) :
    p = (k, v) := by
  unfold setKey at hp
  by_cases h : List.any cfg (fun q => q.1 == k) = true
  · rw [if_pos h] at hp
    obtain ⟨q, hq, hfq⟩ := List.mem_map.mp hp
    by_cases hqk : q.1 = k
    · rw [if_pos (by simpa using hqk)] at hfq
      exact hfq.symm
    · rw [if_neg (by simpa using hqk)] at hfq
      rw [← hfq] at hk
      exact absurd hk hqk
  · rw [if_neg h] at hp
    rcases List.mem_append.mp hp with h1 | h1
    · have := List.any_eq_false.mp (by
        cases hh : List.any cfg (fun q => q.1 == k) with
        | false => rfl
        | true => exact absurd hh h) p h1
      exact absurd (by simpa using hk) this
    · exact List.mem_singleton.mp h1

/-- After `setKey cfg k v` the key `k` is present. -/
theorem any_setKey_self (cfg : Doc) (k : String) (v : Val) :
    List.any (setKey cfg k v) (fun p => p.1 == k) = true := by
  unfold setKey
  by_cases h : List.any cfg (fun p => p.1 == k) = true
  · rw [if_pos h]
    obtain ⟨q, hq, hqk⟩ := List.any_eq_true.mp h
    exact List.any_eq_true.mpr
      ⟨(k, v), List.mem_map.mpr ⟨q, hq, by rw [if_pos hqk]⟩, by simp⟩
  · rw [if_neg h]
    exact List.any_eq_true.mpr
      ⟨(k, v), List.mem_append.mpr (Or.inr (by simp)), by simp⟩

/-- `setKey` never removes a present key. -/
theorem any_setKey_mono (cfg : Doc) (k k' : String) (v : Val)
    (h : List.any cfg (fun p => p.1 == k') = true) :
    List.any (setKey cfg k v) (fun p => p.1 == k') = true := by
  by_cases hkk : k' = k
  · rw [hkk] at h ⊢
    exact any_setKey_self cfg k v
  · obtain ⟨q, hq, hqk⟩ := List.any_eq_true.mp h
    have hqk' : q.1 = k' := by simpa using hqk
    unfold setKey
    by_cases hany : List.any cfg (fun p => p.1 == k) = true
    · rw [if_pos hany]
      exact List.any_eq_true.mpr
        ⟨q, List.mem_map.mpr ⟨q, hq, by rw [if_neg (by simp [hqk', hkk])]⟩, hqk⟩
    · rw [if_neg hany]
      exact List.any_eq_true.mpr ⟨q, List.mem_append.mpr (Or.inl hq), hqk⟩

/-- `override` never removes a present key. -/
theorem any_overrideDoc_mono (rest : Doc) :
    ∀ cfg : Doc, ∀ k' : String,
      List.any cfg (fun p => p.1 == k') = true →
      List.any (overrideDoc cfg rest) (fun p => p.1 == k') = true := by
  induction rest with
  | nil => intro cfg k' h; exact h
  | cons a l ih =>
    intro cfg k' h
    exact ih (setKey cfg a.1 a.2) k' (any_setKey_mono cfg a.1 k' a.2 h)

/-- Entries of an overridden document whose key the overriding document
does not mention come from the original document. -/
theorem mem_overrideDoc_of_key_notin (rest : Doc) :
    ∀ cfg : Doc, ∀ p : String × Val,
      p ∈ overrideDoc cfg rest → p.1 ∉ List.map Prod.fst rest → p ∈ cfg := by
  induction rest with
  | nil => intro cfg p hp _; exact hp
  | cons a l ih =>
    intro cfg p hp hnotin
    rw [List.map_cons] at hnotin
    have h1 : p.1 ∉ List.map Prod.fst l := fun hin =>
      hnotin (List.mem_cons.mpr (Or.inr hin))
    have h2 : p.1 ≠ a.1 := fun he => hnotin (List.mem_cons.mpr (Or.inl he))
    exact mem_setKey_of_key_ne cfg a.1 a.2 p (ih (setKey cfg a.1 a.2) p hp h1) h2

/-- Re-assigning a key that is present and already holds exactly the
assigned value leaves the document unchanged. -/
theorem setKey_eq_self (cfg : Doc) (k : String) (v : Val)
    (hany : List.any cfg (fun p => p.1 == k) = true)
    (hall : ∀ p ∈ cfg, p.1 = k → p = (k, v)) : setKey cfg k v = cfg := by
  unfold setKey
  rw [if_pos hany]
  have hid : ∀ p ∈ cfg, (if p.1 == k then (k, v) else p) = p := by
    intro p hp
    by_cases hpk : p.1 = k
    · rw [if_pos (by simpa using hpk), ← hall p hp hpk]
    · rw [if_neg (by simpa using hpk)]
  calc List.map (fun p => if p.1 == k then (k, v) else p) cfg
      = List.map id cfg := List.map_congr_left hid
    _ = cfg := List.map_id cfg

/-- Applying `override` with the same document twice equals applying it
once. -/
theorem overrideDoc_idem (params : Doc) :
    ∀ cfg : Doc, (List.map Prod.fst params).Nodup →
      overrideDoc (overrideDoc cfg params) params = overrideDoc cfg params := by
  induction params with
  | nil => intro cfg _; rfl
  | cons a rest ih =>
    intro cfg hnd
    rw [List.map_cons, List.nodup_cons] at hnd
    obtain ⟨hka, hnd'⟩ := hnd
    show overrideDoc (setKey (overrideDoc (setKey cfg a.1 a.2) rest) a.1 a.2) rest
        = overrideDoc (setKey cfg a.1 a.2) rest
    have h1 : List.any (overrideDoc (setKey cfg a.1 a.2) rest)
        (fun p => p.1 == a.1) = true :=
      any_overrideDoc_mono rest (setKey cfg a.1 a.2) a.1
        (any_setKey_self cfg a.1 a.2)
    have h2 : ∀ p ∈ overrideDoc (setKey cfg a.1 a.2) rest,
        p.1 = a.1 → p = (a.1, a.2) := by
      intro p hp hpk
      exact setKey_entry_eq cfg a.1 a.2 p
        (mem_overrideDoc_of_key_notin rest (setKey cfg a.1 a.2) p hp
          (by rw [hpk]; exact hka)) hpk
    rw [setKey_eq_self _ a.1 a.2 h1 h2]
    exact ih (setKey cfg a.1 a.2) hnd'

/-- C6: `override(doc)` sets every top-level key of `doc`, replacing any
prior value with `doc`'s value in full (in particular a nested mapping is
replaced wholesale), leaves every other key's value unchanged, and is
idempotent: overriding twice with the same document gives the identical
settings store. -/
theorem C6_override_semantics (cfg params : Doc)
    (hnd : (List.map Prod.fst params).Nodup) :
    (∀ k, lookupKey (overrideDoc cfg params) k =
      (lookupKey params k).or (lookupKey cfg k)) ∧
    overrideDoc (overrideDoc cfg params) params = overrideDoc cfg params :=
  ⟨fun k => lookupKey_overrideDoc params cfg hnd k,
    overrideDoc_idem params cfg hnd⟩

/-- Witness for C6: overriding a store whose `devices` holds a nested
mapping replaces that value wholesale with the new scalar, keeps
`workspace` untouched, and the double application equals the single
one. -/
theorem C6_override_semantics_witness :
    (lookupKey
        (overrideDoc
          [("devices", Val.table [("inner", "x")]), ("workspace", Val.scalar "512")]
          [("devices", Val.scalar "2"), ("seed", Val.scalar "7")]) "devices" =
      (lookupKey [("devices", Val.scalar "2"), ("seed", Val.scalar "7")] "devices").or
        (lookupKey
          [("devices", Val.table [("inner", "x")]), ("workspace", Val.scalar "512")]
          "devices")) ∧
    overrideDoc
        (overrideDoc
          [("devices", Val.table [("inner", "x")]), ("workspace", Val.scalar "512")]
          [("devices", Val.scalar "2"), ("seed", Val.scalar "7")])
        [("devices", Val.scalar "2"), ("seed", Val.scalar "7")] =
      overrideDoc
        [("devices", Val.table [("inner", "x")]), ("workspace", Val.scalar "512")]
        [("devices", Val.scalar "2"), ("seed", Val.scalar "7")] := by
  have h := C6_override_semantics
    [("devices", Val.table [("inner", "x")]), ("workspace", Val.scalar "512")]
    [("devices", Val.scalar "2"), ("seed", Val.scalar "7")] (by decide)
  exact ⟨h.1 "devices", h.2⟩

end Marian
